import Mathlib

/-!
Verification of the chunked-upload client (src/app.py).

The program is a command-line client; the verified core is the chunked
multipart upload loop of upload_fastq (app.py lines 153-213) and
upload_annotation (lines 215-268), plus the single-request helper
list_experiments (lines 271-292).

Shallow embedding choices:
- file bytes are List Nat; file.read(chunk_size) on the remaining bytes
  rest is rest.take chunk_size followed by rest.drop chunk_size;
- the server is a function events : Nat -> Event giving, for the i-th
  HTTP request of a session, either a transport error (the exception
  raised by requests.post) or a response carrying a status code, a parsed
  JSON body (an association list) and a raw text body; response bodies
  are taken to parse as JSON, so response.json() is total here;
- the Python form-data dictionary of one chunk request is the structure
  ChunkRequest; optional dictionary keys are Option fields;
- print-and-return error paths become explicit outcome values; an
  uncaught Python exception becomes the raisedTransport outcome, while
  an exception caught by a try/except block becomes caughtError.
-/

namespace NLClient

/-- File contents as a list of bytes. -/
abbrev Bytes := List Nat

/-- An HTTP response: status code, parsed JSON body (association list of
string fields, modelling response.json()), and raw text (response.text). -/
structure Resp where
  status : Nat
  json : List (String × String)
  text : String
deriving Repr, DecidableEq, Inhabited

/-- What happens when the client issues one HTTP request: either
requests.post raises a transport exception
(requests.exceptions.RequestException), or a response comes back. -/
inductive Event where
  | transportError (msg : String)
  | response (r : Resp)
deriving Repr, DecidableEq, Inhabited

/-- Python truthiness of the upload_id variable (None and the empty string
are falsy, any other string truthy); models the guard at app.py lines 192
and 247. -/
def pyTruthy : Option String → Bool
  | none => false
  | some s => !s.isEmpty

/-- The multipart form data of one chunk request, app.py lines 181-193 and
237-248: the uploaded chunk bytes plus the data dictionary.
is_last_file is present only in upload_fastq (line 189); annotField models
the dictionary key named after annotations (lines 190 and 245); upload_id
is present only when the truthiness guard passes. -/
structure ChunkRequest where
  filename : String
  chunk : Bytes
  offset : Nat
  total_size : Nat
  part_number : Nat
  is_last_chunk : String
  name : String
  email : String
  is_last_file : Option Bool
  annotField : String
  upload_id : Option String
deriving Repr, DecidableEq, Inhabited

/-- How the upload loop of one file ends: normal loop exit at end of file
(line 179 / 235), return after a non-200 status (line 207 / 262), or an
uncaught transport exception from requests.post (lines 194-199 / 249-254
carry no try/except, so the exception propagates to the caller). -/
inductive UploadOutcome where
  | completed
  | abortedNon200 (status : Nat) (text : String)
  | raisedTransport (msg : String)
deriving Repr, DecidableEq, Inhabited

/-- Result of the upload loop of one file: the chunk requests issued in
order, how the loop ended, and the final value of the upload_id variable. -/
structure SessionResult where
  requests : List ChunkRequest
  outcome : UploadOutcome
  finalUploadId : Option String
deriving Repr, DecidableEq, Inhabited

/-- The while-True chunk loop of upload_fastq, app.py lines 176-211, with
the two form fields in which upload_annotation differs kept as parameters
(lastFileField, annotVal).  rest is the unread remainder of the file;
uploaded, part_number and upload_id are the loop variables of lines
173-175; reqIdx counts requests issued so far in this session (the index
into events). -/
def chunkLoop (chunk_size : Nat) (events : Nat → Event)
    (file_name : String) (file_size : Nat) (name email : String)
    (lastFileField : Option Bool) (annotVal : String)
    (rest : Bytes) (uploaded part_number reqIdx : Nat)
    (upload_id : Option String) : SessionResult :=
  let chunk := rest.take chunk_size
  if h : chunk = [] then
    ⟨[], .completed, upload_id⟩
  else
    let is_last_chunk : String :=
      if uploaded + chunk.length ≥ file_size then "true" else "false"
    let req : ChunkRequest :=
      { filename := file_name, chunk := chunk, offset := uploaded,
        total_size := file_size, part_number := part_number,
        is_last_chunk := is_last_chunk, name := name, email := email,
        is_last_file := lastFileField, annotField := annotVal,
        upload_id := if pyTruthy upload_id then upload_id else none }
    match events reqIdx with
    | .transportError m => ⟨[req], .raisedTransport m, upload_id⟩
    | .response r =>
      let upload_id' : Option String :=
        match r.json.lookup "upload_id" with
        | some v => some v
        | none => upload_id
      if r.status ≠ 200 then
        ⟨[req], .abortedNon200 r.status r.text, upload_id'⟩
      else
        let tail := chunkLoop chunk_size events file_name file_size name email
          lastFileField annotVal (rest.drop chunk_size)
          (uploaded + chunk.length) (part_number + 1) (reqIdx + 1) upload_id'
        ⟨req :: tail.requests, tail.outcome, tail.finalUploadId⟩
termination_by rest.length
decreasing_by
  simp only [List.length_drop]
  have hne := List.take_eq_nil_iff.not.mp h
  push_neg at hne
  have hc : 0 < chunk_size := Nat.pos_of_ne_zero hne.1
  have hrest : 0 < rest.length := List.length_pos.mpr hne.2
  omega

/-- The while-True chunk loop of upload_annotation, app.py lines 232-266,
transcribed separately from chunkLoop so that the equivalence of the two
loops is a theorem rather than a modelling assumption: its data dictionary
has no is_last_file key (line 237-246) and the value under the annotations
key is the string True (line 245). -/
def annotLoop (chunk_size : Nat) (events : Nat → Event)
    (file_name : String) (file_size : Nat) (name email : String)
    (rest : Bytes) (uploaded part_number reqIdx : Nat)
    (upload_id : Option String) : SessionResult :=
  let chunk := rest.take chunk_size
  if h : chunk = [] then
    ⟨[], .completed, upload_id⟩
  else
    let is_last_chunk : String :=
      if uploaded + chunk.length ≥ file_size then "true" else "false"
    let req : ChunkRequest :=
      { filename := file_name, chunk := chunk, offset := uploaded,
        total_size := file_size, part_number := part_number,
        is_last_chunk := is_last_chunk, name := name, email := email,
        is_last_file := none, annotField := "True",
        upload_id := if pyTruthy upload_id then upload_id else none }
    match events reqIdx with
    | .transportError m => ⟨[req], .raisedTransport m, upload_id⟩
    | .response r =>
      let upload_id' : Option String :=
        match r.json.lookup "upload_id" with
        | some v => some v
        | none => upload_id
      if r.status ≠ 200 then
        ⟨[req], .abortedNon200 r.status r.text, upload_id'⟩
      else
        let tail := annotLoop chunk_size events file_name file_size name email
          (rest.drop chunk_size) (uploaded + chunk.length)
          (part_number + 1) (reqIdx + 1) upload_id'
        ⟨req :: tail.requests, tail.outcome, tail.finalUploadId⟩
termination_by rest.length
decreasing_by
  simp only [List.length_drop]
  have hne := List.take_eq_nil_iff.not.mp h
  push_neg at hne
  have hc : 0 < chunk_size := Nat.pos_of_ne_zero hne.1
  have hrest : 0 < rest.length := List.length_pos.mpr hne.2
  omega

/-- The upload session of one FASTQ file inside upload_fastq, app.py lines
166-211: loop variables start at upload_id = None, uploaded = 0,
part_number = 1 (lines 173-175); total_size is taken once from the file
(line 164); the form carries is_last_file and the string False under the
annotations key (lines 189-190). -/
def uploadFastqFile (chunk_size : Nat) (events : Nat → Event)
    (file_name name email : String) (content : Bytes)
    (is_last_file : Bool) : SessionResult :=
  chunkLoop chunk_size events file_name content.length name email
    (some is_last_file) "False" content 0 1 0 none

/-- upload_annotation, app.py lines 215-268 (the final success print
omitted): the same loop-variable initialisation as upload_fastq, run on
one file. -/
def uploadAnnotFile (chunk_size : Nat) (events : Nat → Event)
    (file_name name email : String) (content : Bytes) : SessionResult :=
  annotLoop chunk_size events file_name content.length name email
    content 0 1 0 none

/-- Result of upload_fastq over a whole directory: the per-file sessions
actually started (file name paired with its session), the final values of
the counters n_files and n_uploaded_files (lines 158-159), the arguments
of the failure print of line 206 when it fires (file name, the shown
numerator n_uploaded_files + 1, the shown denominator n_files, status
code), the message of an uncaught transport exception when one propagates,
and the arguments of the success print of line 213 when it is reached
(n_uploaded_files, n_files). -/
structure FastqResult where
  sessions : List (String × SessionResult)
  n_files : Nat
  n_uploaded_files : Nat
  failed : Option (String × Nat × Nat × Nat)
  raised : Option String
  finalMessage : Option (Nat × Nat)
deriving Repr, DecidableEq, Inhabited

/-- The for-loop of upload_fastq over the matching files, app.py lines
160-212: index enumerates the matching files, total is their number
(so is_last_file at line 161 is index == total - 1), contents gives the
bytes of each file and events fi ri is what the ri-th request of the
fi-th file sees.  n_files is incremented when a file is started (line
165), n_uploaded_files after a file completes (line 212); a non-200
chunk response returns from the whole function (line 207); an uncaught
transport exception propagates past line 213. -/
def uploadFastqGo (chunk_size : Nat) (contents : String → Bytes)
    (events : Nat → Nat → Event) (name email : String) (total : Nat) :
    List String → Nat → Nat → Nat → FastqResult
  | [], _, n_files, n_up => ⟨[], n_files, n_up, none, none, some (n_up, n_files)⟩
  | f :: fs, index, n_files, n_up =>
    let s := uploadFastqFile chunk_size (events index) f name email
      (contents f) (index == total - 1)
    match s.outcome with
    | .completed =>
      let r := uploadFastqGo chunk_size contents events name email total
        fs (index + 1) (n_files + 1) (n_up + 1)
      ⟨(f, s) :: r.sessions, r.n_files, r.n_uploaded_files,
        r.failed, r.raised, r.finalMessage⟩
    | .abortedNon200 st _ =>
      ⟨[(f, s)], n_files + 1, n_up, some (f, n_up + 1, n_files + 1, st),
        none, none⟩
    | .raisedTransport m =>
      ⟨[(f, s)], n_files + 1, n_up, none, some m, none⟩

/-- The Python test f.endswith(suffix): the characters of suffix are a
suffix of the characters of f (stated on the underlying character lists,
which the Lean kernel can evaluate). -/
def endsWithPy (f suffix : String) : Bool :=
  suffix.data.isSuffixOf f.data

/-- upload_fastq, app.py lines 153-213: filter the directory listing to
the names ending in .fastq.gz (line 154), then upload them in order. -/
def upload_fastq (chunk_size : Nat) (contents : String → Bytes)
    (events : Nat → Nat → Event) (name email : String)
    (files : List String) : FastqResult :=
  let matching_files := files.filter (fun f => endsWithPy f ".fastq.gz")
  uploadFastqGo chunk_size contents events name email
    matching_files.length matching_files 0 0 0

/-- Observable outcome of list_experiments: the summary field printed on
success, the body and status printed on a non-200 response, or the message
printed by the except branch when the request raises. -/
inductive ListOutcome where
  | printedSummary (summary : Option String)
  | printedFailure (text : String) (status : Nat)
  | caughtError (msg : String)
deriving Repr, DecidableEq, Inhabited

/-- list_experiments, app.py lines 271-292: one POST inside a try/except
catching requests.exceptions.RequestException; a transport error is caught
and printed (lines 290-292), a non-200 response prints body and status
(lines 283-286), and a 200 response prints the summary field. -/
def list_experiments (event : Event) : ListOutcome :=
  match event with
  | .transportError m => .caughtError m
  | .response r =>
    if r.status ≠ 200 then .printedFailure r.text r.status
    else .printedSummary (r.json.lookup "summary")

/-- Does an event carry a status-200 response. -/
def responds200 : Event → Bool
  | .transportError _ => false
  | .response r => r.status == 200

/-- The value of the upload_id loop variable after the first k requests of
a session whose i-th request saw events i: it starts as None (line 173 /
229) and is overwritten whenever a response body contains the upload_id
key (lines 201-202 / 256-257), even by a later or a non-200 response; a
transport error leaves it unchanged (the loop then dies anyway). -/
def recordedUploadId (events : Nat → Event) : Nat → Option String
  | 0 => none
  | k + 1 =>
    match events k with
    | .transportError _ => recordedUploadId events k
    | .response r =>
      match r.json.lookup "upload_id" with
      | some v => some v
      | none => recordedUploadId events k

/-- An event whose response body does not mention the upload_id key (a
transport error trivially supplies nothing). -/
def uidSilent : Event → Prop
  | .transportError _ => True
  | .response r => r.json.lookup "upload_id" = none

/-- The fields of a chunk request shared verbatim by upload_fastq and
upload_annotation, i.e. everything except is_last_file and the annotations
field. -/
structure CoreFields where
  filename : String
  chunk : Bytes
  offset : Nat
  total_size : Nat
  part_number : Nat
  is_last_chunk : String
  name : String
  email : String
  upload_id : Option String
deriving Repr, DecidableEq, Inhabited

/-- Projection of a chunk request onto the fields shared by the two
uploaders. -/
def coreOf (r : ChunkRequest) : CoreFields :=
  ⟨r.filename, r.chunk, r.offset, r.total_size, r.part_number,
    r.is_last_chunk, r.name, r.email, r.upload_id⟩

/-- A constant all-success server: every request gets status 200 with an
empty JSON body. -/
def evOk : Nat → Event := fun _ => Event.response ⟨200, [], ""⟩

/-- A constant all-success server seen by every file of a directory
upload. -/
def evOk2 : Nat → Nat → Event := fun _ _ => Event.response ⟨200, [], ""⟩

/-- A server that succeeds on request 0 and returns status 500 with body
err from request 1 on. -/
def evFail1 : Nat → Event := fun j =>
  if j = 0 then Event.response ⟨200, [], ""⟩ else Event.response ⟨500, [], "err"⟩

/-- A server whose first response supplies upload_id a, whose second
supplies upload_id b, and which supplies nothing afterwards. -/
def evOverwrite : Nat → Event := fun j =>
  if j = 0 then Event.response ⟨200, [("upload_id", "a")], ""⟩
  else if j = 1 then Event.response ⟨200, [("upload_id", "b")], ""⟩
  else Event.response ⟨200, [], ""⟩

/-- A server whose first response supplies the empty string as upload_id
and which supplies nothing afterwards. -/
def evEmptyUid : Nat → Event := fun j =>
  if j = 0 then Event.response ⟨200, [("upload_id", "")], ""⟩
  else Event.response ⟨200, [], ""⟩

/-- A directory-upload server that succeeds for file 0 and returns status
500 with body err for every later file. -/
def evFailFile1 : Nat → Nat → Event := fun fi _ =>
  if fi = 0 then Event.response ⟨200, [], ""⟩ else Event.response ⟨500, [], "err"⟩

/-- Ceiling-division bookkeeping: removing one chunk of size c from n
remaining bytes lowers the chunk count by one. -/
theorem ceil_chunks_step (c n : Nat) (hc : 0 < c) (hn : 0 < n) :
    (n + c - 1) / c = (n - c + c - 1) / c + 1 := by
  rcases le_or_lt n c with h | h
  · have h1 : n + c - 1 = (n - 1) + c := by omega
    have h2 : n - c + c - 1 = c - 1 := by omega
    rw [h1, h2, Nat.add_div_right _ hc,
      Nat.div_eq_of_lt (show n - 1 < c by omega),
      Nat.div_eq_of_lt (show c - 1 < c by omega)]
  · have h1 : n + c - 1 = (n - 1) + c := by omega
    have h2 : n - c + c - 1 = n - 1 := by omega
    rw [h1, h2, Nat.add_div_right _ hc]

/-- Whenever the first read is non-empty, at least one chunk request goes
out, whatever the server does. -/
theorem chunkLoop_requests_ne_nil (c : Nat) (ev : Nat → Event) (fn : String)
    (fs : Nat) (nm em : String) (lf : Option Bool) (av : String)
    (rest : Bytes) (u p i : Nat) (uid : Option String)
    (h0 : List.take c rest ≠ []) :
    (chunkLoop c ev fn fs nm em lf av rest u p i uid).requests ≠ [] := by
  rw [chunkLoop]
  cases hev : ev i with
  | transportError m => simp [h0, hev]
  | response r =>
    by_cases hst : r.status ≠ 200 <;> simp [h0, hev, hst]

/-- At end of file the loop exits at once: a read of zero bytes is the
only loop-termination condition. -/
theorem chunkLoop_nil (c : Nat) (ev : Nat → Event) (fn : String)
    (fs : Nat) (nm em : String) (lf : Option Bool) (av : String)
    (u p i : Nat) (uid : Option String) :
    chunkLoop c ev fn fs nm em lf av [] u p i uid
      = ⟨[], .completed, uid⟩ := by
  rw [chunkLoop]
  simp

/-- The part_number fields of the requests issued from a loop state with
part_number = p are p, p + 1, p + 2, ..., whatever the server does. -/
theorem chunkLoop_partNumbers (c : Nat) (ev : Nat → Event) (fn : String)
    (fs : Nat) (nm em : String) (lf : Option Bool) (av : String) :
    ∀ (rest : Bytes) (u p i : Nat) (uid : Option String),
      (chunkLoop c ev fn fs nm em lf av rest u p i uid).requests.map
          (fun r => r.part_number)
        = List.range' p
            (chunkLoop c ev fn fs nm em lf av rest u p i uid).requests.length := by
  intro rest u p i uid
  induction rest, u, p, i, uid using chunkLoop.induct c ev fn fs nm em lf av with
  | case1 rest u p i uid chunk hchunk =>
    have h0 : List.take c rest = [] := hchunk
    rw [chunkLoop]
    simp [h0]
  | case2 rest u p i uid chunk hchunk m hev =>
    have h0 : ¬ List.take c rest = [] := hchunk
    rw [chunkLoop]
    simp [h0, hev, List.range'_succ]
  | case3 rest u p i uid chunk hchunk r hev hst =>
    have h0 : ¬ List.take c rest = [] := hchunk
    rw [chunkLoop]
    simp [h0, hev, hst, List.range'_succ]
  | case4 rest u p i uid chunk hchunk r hev uid' hst ih =>
    have h0 : ¬ List.take c rest = [] := hchunk
    have hst2 : r.status = 200 := not_not.mp hst
    unfold_let chunk uid' at ih
    simp only [List.length_take] at ih
    rw [chunkLoop]
    simp [h0, hev, hst2, List.range'_succ, ih]

/-- Under an all-success server and a positive chunk size, the loop issues
exactly ceil(remaining / chunk_size) requests whose chunk lengths sum to
the number of remaining bytes. -/
theorem chunkLoop_count (c : Nat) (ev : Nat → Event) (fn : String)
    (fs : Nat) (nm em : String) (lf : Option Bool) (av : String)
    (hc : 0 < c) (hok : ∀ j, responds200 (ev j) = true) :
    ∀ (rest : Bytes) (u p i : Nat) (uid : Option String),
      (chunkLoop c ev fn fs nm em lf av rest u p i uid).requests.length
          = (rest.length + c - 1) / c
        ∧ ((chunkLoop c ev fn fs nm em lf av rest u p i uid).requests.map
            (fun r => r.chunk.length)).sum = rest.length := by
  intro rest u p i uid
  induction rest, u, p, i, uid using chunkLoop.induct c ev fn fs nm em lf av with
  | case1 rest u p i uid chunk hchunk =>
    have h0 : List.take c rest = [] := hchunk
    have hrest : rest = [] := by
      rcases List.take_eq_nil_iff.mp h0 with h | h
      · omega
      · exact h
    subst hrest
    rw [chunkLoop]
    simp [Nat.div_eq_of_lt (show c - 1 < c by omega)]
  | case2 rest u p i uid chunk hchunk m hev =>
    have := hok i
    rw [hev] at this
    simp [responds200] at this
  | case3 rest u p i uid chunk hchunk r hev hst =>
    have := hok i
    rw [hev] at this
    simp [responds200] at this
    exact absurd this hst
  | case4 rest u p i uid chunk hchunk r hev uid' hst ih =>
    have h0 : ¬ List.take c rest = [] := hchunk
    have hst2 : r.status = 200 := not_not.mp hst
    have hrest : rest ≠ [] := by
      intro hr
      exact h0 (by simp [hr])
    have hn : 0 < rest.length := List.length_pos.mpr hrest
    unfold_let chunk uid' at ih
    simp only [List.length_take] at ih
    rw [chunkLoop]
    simp [h0, hev, hst2, ih.1, ih.2]
    constructor
    · exact (ceil_chunks_step c rest.length hc hn).symm
    · omega

/-- Under an all-success server and a positive chunk size, starting from a
non-empty remainder whose size matches the byte accounting
(file_size = uploaded + remaining), the is_last_chunk strings of the
issued requests are false, ..., false, true. -/
theorem chunkLoop_lastFlags (c : Nat) (ev : Nat → Event) (fn : String)
    (fs : Nat) (nm em : String) (lf : Option Bool) (av : String)
    (hc : 0 < c) (hok : ∀ j, responds200 (ev j) = true) :
    ∀ (rest : Bytes) (u p i : Nat) (uid : Option String),
      fs = u + rest.length → rest ≠ [] →
      (chunkLoop c ev fn fs nm em lf av rest u p i uid).requests.map
          (fun r => r.is_last_chunk)
        = List.replicate
            ((chunkLoop c ev fn fs nm em lf av rest u p i uid).requests.length - 1)
            "false" ++ ["true"] := by
  intro rest u p i uid
  induction rest, u, p, i, uid using chunkLoop.induct c ev fn fs nm em lf av with
  | case1 rest u p i uid chunk hchunk =>
    intro _ hne
    have h0 : List.take c rest = [] := hchunk
    rcases List.take_eq_nil_iff.mp h0 with h | h
    · omega
    · exact absurd h hne
  | case2 rest u p i uid chunk hchunk m hev =>
    intro _ _
    have := hok i
    rw [hev] at this
    simp [responds200] at this
  | case3 rest u p i uid chunk hchunk r hev hst =>
    intro _ _
    have := hok i
    rw [hev] at this
    simp [responds200] at this
    exact absurd this hst
  | case4 rest u p i uid chunk hchunk r hev uid' hst ih =>
    intro hfs hne
    have h0 : ¬ List.take c rest = [] := hchunk
    have hst2 : r.status = 200 := not_not.mp hst
    have hn : 0 < rest.length := List.length_pos.mpr hne
    unfold_let chunk uid' at ih
    simp only [List.length_take] at ih
    rcases le_or_lt rest.length c with hsmall | hbig
    · -- the final chunk: everything remaining fits in one read
      have hdrop : List.drop c rest = [] := List.drop_eq_nil_of_le hsmall
      rw [chunkLoop]
      simp [h0, hev, hst2, hdrop, chunkLoop_nil]
      omega
    · -- a middle chunk: strictly more than one chunk remains
      have hdropne : List.drop c rest ≠ [] := by
        intro h
        have := congrArg List.length h
        simp [List.length_drop] at this
        omega
      have htail := ih (by simp [List.length_drop]; omega) hdropne
      have htailne : (chunkLoop c ev fn fs nm em lf av (List.drop c rest)
          (u + c ⊓ rest.length) (p + 1) (i + 1)
          (match List.lookup "upload_id" r.json with
            | some v => some v
            | none => uid)).requests ≠ [] := by
        apply chunkLoop_requests_ne_nil
        intro h
        rcases List.take_eq_nil_iff.mp h with h' | h'
        · omega
        · exact absurd h' hdropne
      have htlen : 0 < (chunkLoop c ev fn fs nm em lf av (List.drop c rest)
          (u + c ⊓ rest.length) (p + 1) (i + 1)
          (match List.lookup "upload_id" r.json with
            | some v => some v
            | none => uid)).requests.length := List.length_pos.mpr htailne
      rw [chunkLoop]
      simp [h0, hev, hst2]
      rw [if_neg (by omega), htail]
      have h1 : ∀ n : Nat, 0 < n →
          ("false" :: (List.replicate (n - 1) "false" ++ ["true"]))
            = List.replicate n "false" ++ ["true"] := by
        intro n hn
        cases n with
        | zero => omega
        | succ m => simp [List.replicate_succ]
      exact h1 _ htlen

/-- One step of the recorded upload_id: a response carrying the key
overwrites the variable, anything else leaves it. -/
theorem recordedUploadId_succ (ev : Nat → Event) (k : Nat) :
    recordedUploadId ev (k + 1)
      = match ev k with
        | .transportError _ => recordedUploadId ev k
        | .response r =>
          match r.json.lookup "upload_id" with
          | some v => some v
          | none => recordedUploadId ev k := by
  rw [recordedUploadId]

/-- The upload_id fields of the requests issued from a loop state whose
upload_id variable agrees with the recorded value after i requests: the
j-th request of the session includes the recorded value after j requests
when it is truthy and omits the key otherwise, whatever the server does. -/
theorem chunkLoop_uploadIds (c : Nat) (ev : Nat → Event) (fn : String)
    (fs : Nat) (nm em : String) (lf : Option Bool) (av : String) :
    ∀ (rest : Bytes) (u p i : Nat) (uid : Option String),
      uid = recordedUploadId ev i →
      (chunkLoop c ev fn fs nm em lf av rest u p i uid).requests.map
          (fun r => r.upload_id)
        = (List.range' i
            (chunkLoop c ev fn fs nm em lf av rest u p i uid).requests.length).map
            (fun j => if pyTruthy (recordedUploadId ev j)
              then recordedUploadId ev j else none) := by
  intro rest u p i uid
  induction rest, u, p, i, uid using chunkLoop.induct c ev fn fs nm em lf av with
  | case1 rest u p i uid chunk hchunk =>
    intro huid
    have h0 : List.take c rest = [] := hchunk
    rw [chunkLoop]
    simp [h0]
  | case2 rest u p i uid chunk hchunk m hev =>
    intro huid
    subst huid
    have h0 : ¬ List.take c rest = [] := hchunk
    rw [chunkLoop]
    simp [h0, hev, List.range'_succ]
  | case3 rest u p i uid chunk hchunk r hev hst =>
    intro huid
    subst huid
    have h0 : ¬ List.take c rest = [] := hchunk
    rw [chunkLoop]
    simp [h0, hev, hst, List.range'_succ]
  | case4 rest u p i uid chunk hchunk r hev uid' hst ih =>
    intro huid
    subst huid
    have h0 : ¬ List.take c rest = [] := hchunk
    have hst2 : r.status = 200 := not_not.mp hst
    have hrec : recordedUploadId ev (i + 1)
        = match r.json.lookup "upload_id" with
          | some v => some v
          | none => recordedUploadId ev i := by
      rw [recordedUploadId_succ, hev]
    unfold_let chunk uid' at ih
    simp only [List.length_take] at ih
    have ih' := ih hrec.symm
    rw [chunkLoop]
    simp [h0, hev, hst2, List.range'_succ, ih']

/-- The final value of the upload_id variable is the recorded value after
all issued requests, whatever the server does. -/
theorem chunkLoop_finalUploadId (c : Nat) (ev : Nat → Event) (fn : String)
    (fs : Nat) (nm em : String) (lf : Option Bool) (av : String) :
    ∀ (rest : Bytes) (u p i : Nat) (uid : Option String),
      uid = recordedUploadId ev i →
      (chunkLoop c ev fn fs nm em lf av rest u p i uid).finalUploadId
        = recordedUploadId ev
            (i + (chunkLoop c ev fn fs nm em lf av rest u p i uid).requests.length) := by
  intro rest u p i uid
  induction rest, u, p, i, uid using chunkLoop.induct c ev fn fs nm em lf av with
  | case1 rest u p i uid chunk hchunk =>
    intro huid
    have h0 : List.take c rest = [] := hchunk
    rw [chunkLoop]
    simp [h0, huid]
  | case2 rest u p i uid chunk hchunk m hev =>
    intro huid
    subst huid
    have h0 : ¬ List.take c rest = [] := hchunk
    rw [chunkLoop]
    simp [h0, hev, recordedUploadId_succ]
  | case3 rest u p i uid chunk hchunk r hev hst =>
    intro huid
    subst huid
    have h0 : ¬ List.take c rest = [] := hchunk
    rw [chunkLoop]
    simp [h0, hev, hst, recordedUploadId_succ]
  | case4 rest u p i uid chunk hchunk r hev uid' hst ih =>
    intro huid
    subst huid
    have h0 : ¬ List.take c rest = [] := hchunk
    have hst2 : r.status = 200 := not_not.mp hst
    have hrec : recordedUploadId ev (i + 1)
        = match r.json.lookup "upload_id" with
          | some v => some v
          | none => recordedUploadId ev i := by
      rw [recordedUploadId_succ, hev]
    unfold_let chunk uid' at ih
    simp only [List.length_take] at ih
    have ih' := ih hrec.symm
    rw [chunkLoop]
    simp [h0, hev, hst2, ih']
    have harith : ∀ t : Nat, i + 1 + t = i + (t + 1) := by omega
    rw [harith]

/-- Under an all-success server the loop runs to normal completion,
whatever the file contents. -/
theorem chunkLoop_completes (c : Nat) (ev : Nat → Event) (fn : String)
    (fs : Nat) (nm em : String) (lf : Option Bool) (av : String)
    (hok : ∀ j, responds200 (ev j) = true) :
    ∀ (rest : Bytes) (u p i : Nat) (uid : Option String),
      (chunkLoop c ev fn fs nm em lf av rest u p i uid).outcome
        = .completed := by
  intro rest u p i uid
  induction rest, u, p, i, uid using chunkLoop.induct c ev fn fs nm em lf av with
  | case1 rest u p i uid chunk hchunk =>
    have h0 : List.take c rest = [] := hchunk
    rw [chunkLoop]
    simp [h0]
  | case2 rest u p i uid chunk hchunk m hev =>
    have := hok i
    rw [hev] at this
    simp [responds200] at this
  | case3 rest u p i uid chunk hchunk r hev hst =>
    have := hok i
    rw [hev] at this
    simp [responds200] at this
    exact absurd this hst
  | case4 rest u p i uid chunk hchunk r hev uid' hst ih =>
    have h0 : ¬ List.take c rest = [] := hchunk
    have hst2 : r.status = 200 := not_not.mp hst
    unfold_let chunk uid' at ih
    simp only [List.length_take] at ih
    rw [chunkLoop]
    simp [h0, hev, hst2, ih]

/-- A fail-fast run: when requests 0, ..., k-1 of the session succeed with
status 200, request k draws a non-200 response, and at least k + 1 chunks
remain to send, the loop issues exactly k + 1 requests and then returns
with the abort outcome (no exception, no further requests). -/
theorem chunkLoop_abort (c : Nat) (ev : Nat → Event) (fn : String)
    (fs : Nat) (nm em : String) (lf : Option Bool) (av : String) :
    ∀ (rest : Bytes) (u p i : Nat) (uid : Option String) (k : Nat) (r : Resp),
      (∀ j, j < k → responds200 (ev (i + j)) = true) →
      ev (i + k) = .response r → r.status ≠ 200 →
      k < (rest.length + c - 1) / c →
      (chunkLoop c ev fn fs nm em lf av rest u p i uid).requests.length = k + 1
        ∧ (chunkLoop c ev fn fs nm em lf av rest u p i uid).outcome
            = .abortedNon200 r.status r.text := by
  intro rest u p i uid
  induction rest, u, p, i, uid using chunkLoop.induct c ev fn fs nm em lf av with
  | case1 rest u p i uid chunk hchunk =>
    intro k r hpre hk hst hbound
    have h0 : List.take c rest = [] := hchunk
    rcases List.take_eq_nil_iff.mp h0 with h | h
    · subst h
      simp at hbound
    · subst h
      simp only [List.length_nil, Nat.zero_add] at hbound
      rcases Nat.eq_zero_or_pos c with hc | hc
      · subst hc
        simp at hbound
      · rw [Nat.div_eq_of_lt (show c - 1 < c by omega)] at hbound
        omega
  | case2 rest u p i uid chunk hchunk m hev =>
    intro k r hpre hk hst hbound
    cases k with
    | zero =>
      rw [Nat.add_zero] at hk
      rw [hev] at hk
      cases hk
    | succ k' =>
      have := hpre 0 (by omega)
      rw [Nat.add_zero, hev] at this
      simp [responds200] at this
  | case3 rest u p i uid chunk hchunk r0 hev hst0 =>
    intro k r hpre hk hst hbound
    have h0 : ¬ List.take c rest = [] := hchunk
    cases k with
    | zero =>
      rw [Nat.add_zero] at hk
      rw [hev] at hk
      cases hk
      rw [chunkLoop]
      simp [h0, hev, hst0]
    | succ k' =>
      have := hpre 0 (by omega)
      rw [Nat.add_zero, hev] at this
      simp [responds200] at this
      exact absurd this hst0
  | case4 rest u p i uid chunk hchunk r0 hev uid' hst0 ih =>
    intro k r hpre hk hst hbound
    have h0 : ¬ List.take c rest = [] := hchunk
    have hst2 : r0.status = 200 := not_not.mp hst0
    have hne := List.take_eq_nil_iff.not.mp h0
    push_neg at hne
    have hc : 0 < c := Nat.pos_of_ne_zero hne.1
    have hn : 0 < rest.length := List.length_pos.mpr hne.2
    cases k with
    | zero =>
      rw [Nat.add_zero] at hk
      rw [hev] at hk
      cases hk
      exact absurd hst2 hst
    | succ k' =>
      unfold_let chunk uid' at ih
      simp only [List.length_take] at ih
      have hbound' : k' < ((List.drop c rest).length + c - 1) / c := by
        have hstep := ceil_chunks_step c rest.length hc hn
        simp only [List.length_drop]
        omega
      have hpre' : ∀ j, j < k' → responds200 (ev (i + 1 + j)) = true := by
        intro j hj
        have := hpre (j + 1) (by omega)
        have harith : i + (j + 1) = i + 1 + j := by omega
        rw [harith] at this
        exact this
      have hk' : ev (i + 1 + k') = .response r := by
        have harith : i + (k' + 1) = i + 1 + k' := by omega
        rw [harith] at hk
        exact hk
      have ihres := ih k' r hpre' hk' hst hbound'
      rw [chunkLoop]
      simp [h0, hev, hst2, ihres.1, ihres.2]

/-- The loop of upload_annotation is the shared loop with the is_last_file
key absent and the string True under the annotations key: the two loop
bodies are line-for-line identical apart from those two dictionary
entries. -/
theorem annotLoop_eq (c : Nat) (ev : Nat → Event) (fn : String)
    (fs : Nat) (nm em : String) :
    ∀ (rest : Bytes) (u p i : Nat) (uid : Option String),
      annotLoop c ev fn fs nm em rest u p i uid
        = chunkLoop c ev fn fs nm em none "True" rest u p i uid := by
  intro rest u p i uid
  induction rest, u, p, i, uid using annotLoop.induct c ev fn fs nm em with
  | case1 rest u p i uid chunk hchunk =>
    have h0 : List.take c rest = [] := hchunk
    rw [annotLoop, chunkLoop]
    simp [h0]
  | case2 rest u p i uid chunk hchunk m hev =>
    have h0 : ¬ List.take c rest = [] := hchunk
    rw [annotLoop, chunkLoop]
    simp [h0, hev]
  | case3 rest u p i uid chunk hchunk r hev hst =>
    have h0 : ¬ List.take c rest = [] := hchunk
    rw [annotLoop, chunkLoop]
    simp [h0, hev, hst]
  | case4 rest u p i uid chunk hchunk r hev uid' hst ih =>
    have h0 : ¬ List.take c rest = [] := hchunk
    have hst2 : r.status = 200 := not_not.mp hst
    unfold_let chunk uid' at ih
    simp only [List.length_take] at ih
    rw [annotLoop, chunkLoop]
    simp [h0, hev, hst2, ih]

/-- The core of the request stream, the outcome and the final upload_id do
not depend on the two metadata fields in which the uploaders differ. -/
theorem chunkLoop_core_indep (c : Nat) (ev : Nat → Event) (fn : String)
    (fs : Nat) (nm em : String) (lf₁ lf₂ : Option Bool) (av₁ av₂ : String) :
    ∀ (rest : Bytes) (u p i : Nat) (uid : Option String),
      ((chunkLoop c ev fn fs nm em lf₁ av₁ rest u p i uid).requests.map coreOf
          = (chunkLoop c ev fn fs nm em lf₂ av₂ rest u p i uid).requests.map coreOf)
        ∧ (chunkLoop c ev fn fs nm em lf₁ av₁ rest u p i uid).outcome
            = (chunkLoop c ev fn fs nm em lf₂ av₂ rest u p i uid).outcome
        ∧ (chunkLoop c ev fn fs nm em lf₁ av₁ rest u p i uid).finalUploadId
            = (chunkLoop c ev fn fs nm em lf₂ av₂ rest u p i uid).finalUploadId := by
  intro rest u p i uid
  induction rest, u, p, i, uid using chunkLoop.induct c ev fn fs nm em lf₁ av₁ with
  | case1 rest u p i uid chunk hchunk =>
    have h0 : List.take c rest = [] := hchunk
    rw [chunkLoop.eq_1 c ev fn fs nm em lf₁ av₁, chunkLoop.eq_1 c ev fn fs nm em lf₂ av₂]
    simp [h0]
  | case2 rest u p i uid chunk hchunk m hev =>
    have h0 : ¬ List.take c rest = [] := hchunk
    rw [chunkLoop.eq_1 c ev fn fs nm em lf₁ av₁, chunkLoop.eq_1 c ev fn fs nm em lf₂ av₂]
    simp [h0, hev, coreOf]
  | case3 rest u p i uid chunk hchunk r hev hst =>
    have h0 : ¬ List.take c rest = [] := hchunk
    rw [chunkLoop.eq_1 c ev fn fs nm em lf₁ av₁, chunkLoop.eq_1 c ev fn fs nm em lf₂ av₂]
    simp [h0, hev, hst, coreOf]
  | case4 rest u p i uid chunk hchunk r hev uid' hst ih =>
    have h0 : ¬ List.take c rest = [] := hchunk
    have hst2 : r.status = 200 := not_not.mp hst
    unfold_let chunk uid' at ih
    simp only [List.length_take] at ih
    rw [chunkLoop.eq_1 c ev fn fs nm em lf₁ av₁, chunkLoop.eq_1 c ev fn fs nm em lf₂ av₂]
    simp [h0, hev, hst2, coreOf, ih.1, ih.2.1, ih.2.2]

/-- Every request of a session carries the metadata pair the loop was
instantiated with: is_last_file and the annotations value are constant
across the session. -/
theorem chunkLoop_metaFields (c : Nat) (ev : Nat → Event) (fn : String)
    (fs : Nat) (nm em : String) (lf : Option Bool) (av : String) :
    ∀ (rest : Bytes) (u p i : Nat) (uid : Option String),
      (chunkLoop c ev fn fs nm em lf av rest u p i uid).requests.map
          (fun r => (r.is_last_file, r.annotField))
        = List.replicate
            (chunkLoop c ev fn fs nm em lf av rest u p i uid).requests.length
            (lf, av) := by
  intro rest u p i uid
  induction rest, u, p, i, uid using chunkLoop.induct c ev fn fs nm em lf av with
  | case1 rest u p i uid chunk hchunk =>
    have h0 : List.take c rest = [] := hchunk
    rw [chunkLoop]
    simp [h0]
  | case2 rest u p i uid chunk hchunk m hev =>
    have h0 : ¬ List.take c rest = [] := hchunk
    rw [chunkLoop]
    simp [h0, hev, List.replicate_succ]
  | case3 rest u p i uid chunk hchunk r hev hst =>
    have h0 : ¬ List.take c rest = [] := hchunk
    rw [chunkLoop]
    simp [h0, hev, hst, List.replicate_succ]
  | case4 rest u p i uid chunk hchunk r hev uid' hst ih =>
    have h0 : ¬ List.take c rest = [] := hchunk
    have hst2 : r.status = 200 := not_not.mp hst
    unfold_let chunk uid' at ih
    simp only [List.length_take] at ih
    rw [chunkLoop]
    simp [h0, hev, hst2, List.replicate_succ, ih]

/-- Under an all-success server the directory loop starts one session per
listed file, completes them all, increments both counters once per file,
never fails or raises, and reaches the final success print. -/
theorem uploadFastqGo_allOk (c : Nat) (contents : String → Bytes)
    (events : Nat → Nat → Event) (nm em : String) (total : Nat)
    (hok : ∀ fi rj, responds200 (events fi rj) = true) :
    ∀ (lst : List String) (idx n u : Nat),
      ((uploadFastqGo c contents events nm em total lst idx n u).sessions.map
          Prod.fst = lst)
        ∧ (uploadFastqGo c contents events nm em total lst idx n u).n_files
            = n + lst.length
        ∧ (uploadFastqGo c contents events nm em total lst idx n u).n_uploaded_files
            = u + lst.length
        ∧ (uploadFastqGo c contents events nm em total lst idx n u).failed = none
        ∧ (uploadFastqGo c contents events nm em total lst idx n u).raised = none
        ∧ (uploadFastqGo c contents events nm em total lst idx n u).finalMessage
            = some (u + lst.length, n + lst.length) := by
  intro lst
  induction lst with
  | nil =>
    intro idx n u
    simp [uploadFastqGo]
  | cons f fs ih =>
    intro idx n u
    have hdone : (uploadFastqFile c (events idx) f nm em (contents f)
        (idx == total - 1)).outcome = .completed := by
      rw [uploadFastqFile]
      exact chunkLoop_completes c (events idx) f (contents f).length nm em
        (some (idx == total - 1)) "False" (hok idx) (contents f) 0 1 0 none
    have ihs := ih (idx + 1) (n + 1) (u + 1)
    rw [uploadFastqGo]
    simp only [hdone]
    simp [ihs.1, ihs.2.1, ihs.2.2.1, ihs.2.2.2.1, ihs.2.2.2.2.1,
      ihs.2.2.2.2.2]
    omega

/-- Whenever the directory loop enters with equal counters and ends in the
failure print, the printed numerator and denominator agree, equal the
final n_files counter, and count exactly the sessions started. -/
theorem uploadFastqGo_failCounts (c : Nat) (contents : String → Bytes)
    (events : Nat → Nat → Event) (nm em : String) (total : Nat) :
    ∀ (lst : List String) (idx n : Nat) (f : String) (num den st : Nat),
      (uploadFastqGo c contents events nm em total lst idx n n).failed
          = some (f, num, den, st) →
      num = den
        ∧ den = (uploadFastqGo c contents events nm em total lst idx n n).n_files
        ∧ (uploadFastqGo c contents events nm em total lst idx n n).n_files
            = n + (uploadFastqGo c contents events nm em total lst idx n n).sessions.length := by
  intro lst
  induction lst with
  | nil =>
    intro idx n f num den st hfail
    simp [uploadFastqGo] at hfail
  | cons g fs ih =>
    intro idx n f num den st hfail
    rcases hout : (uploadFastqFile c (events idx) g nm em (contents g)
        (idx == total - 1)).outcome with _ | ⟨st0, tx0⟩ | m
    · rw [uploadFastqGo] at hfail ⊢
      simp only [hout] at hfail ⊢
      have := ih (idx + 1) (n + 1) f num den st hfail
      simp only [List.map_cons, List.length_cons]
      refine ⟨this.1, this.2.1, ?_⟩
      have h2 := this.2.2
      simp at h2 ⊢
      omega
    · rw [uploadFastqGo] at hfail ⊢
      simp only [hout] at hfail ⊢
      simp at hfail
      simp [hfail]
      omega
    · rw [uploadFastqGo] at hfail ⊢
      simp only [hout] at hfail ⊢
      simp at hfail

/-- After the step that records a value, further upload_id-silent events
leave the recorded upload_id unchanged. -/
theorem recorded_stable_after (ev : Nat → Event) (k : Nat)
    (h3 : ∀ j, k < j → uidSilent (ev j)) :
    ∀ i, k + 1 ≤ i → recordedUploadId ev i = recordedUploadId ev (k + 1) := by
  intro i
  induction i with
  | zero =>
    intro h
    omega
  | succ n ihn =>
    intro h
    rcases Nat.lt_or_ge k n with hlt | hge
    · have hs := h3 n hlt
      rw [recordedUploadId_succ]
      cases hn : ev n with
      | transportError m =>
        exact ihn (by omega)
      | response r =>
        have hnone : r.json.lookup "upload_id" = none := by
          rw [hn] at hs
          exact hs
        show (match List.lookup "upload_id" r.json with
          | some v => some v
          | none => recordedUploadId ev n) = recordedUploadId ev (k + 1)
        rw [hnone]
        exact ihn (by omega)
    · have hnk : n = k := by omega
      subst hnk
      rfl

/-- Dropping j entries from a numeric range shifts its start by j. -/
theorem range'_drop : ∀ (n s j : Nat),
    (List.range' s n).drop j = List.range' (s + j) (n - j) := by
  intro n
  induction n with
  | zero =>
    intro s j
    simp
  | succ m ihm =>
    intro s j
    cases j with
    | zero => simp
    | succ j' =>
      rw [List.range'_succ]
      simp only [List.drop_succ_cons]
      rw [ihm (s + 1) j']
      congr 1 <;> omega

/-- A function that is none from s on maps a range starting at s to a
block of none entries. -/
theorem map_none_on_range' (g : Nat → Option String) :
    ∀ (m s : Nat), (∀ j, s ≤ j → g j = none) →
      (List.range' s m).map g = List.replicate m none := by
  intro m
  induction m with
  | zero =>
    intro s h
    simp
  | succ m' ihm =>
    intro s h
    rw [List.range'_succ, List.map_cons, h s (le_refl s),
      ihm (s + 1) (fun j hj => h j (by omega)), List.replicate_succ]

/-- Claim C1: for every chunk size c at least 1 and every file content of
size s, a session whose requests all succeed issues exactly ceil(s / c)
chunk requests (zero when s = 0, the zero-byte read being the only
loop-termination condition) and the lengths of the chunks sent sum to s. -/
theorem upload_fastq_chunk_accounting (c : Nat) (ev : Nat → Event)
    (fn nm em : String) (content : Bytes) (b : Bool)
    (hc : 1 ≤ c) (hok : ∀ j, responds200 (ev j) = true) :
    (uploadFastqFile c ev fn nm em content b).requests.length
        = (content.length + c - 1) / c
      ∧ ((uploadFastqFile c ev fn nm em content b).requests.map
          (fun r => r.chunk.length)).sum = content.length := by
  simp only [uploadFastqFile]
  exact chunkLoop_count c ev fn content.length nm em (some b) "False" hc hok
    content 0 1 0 none

/-- Witness for C1: chunk size 2 on a 3-byte file gives ceil(3 / 2) = 2
requests totalling 3 bytes. -/
theorem upload_fastq_chunk_accounting_witness :
    (uploadFastqFile 2 evOk "f.fastq.gz" "n" "e" [9, 8, 7] true).requests.length = 2
      ∧ ((uploadFastqFile 2 evOk "f.fastq.gz" "n" "e" [9, 8, 7] true).requests.map
          (fun r => r.chunk.length)).sum = 3 := by
  have h := upload_fastq_chunk_accounting 2 evOk "f.fastq.gz" "n" "e" [9, 8, 7]
    true (by omega) (fun j => rfl)
  simpa using h

/-- Claim C2: in a session that runs to completion the wire field
is_last_chunk is the string false on every chunk request except the final
one and the string true on the final one; the flag is byte accounting
(uploaded + len(chunk) >= total_size with >=), so a last chunk landing
exactly on total_size, including the full-size last chunk of an
exact-multiple file, is marked last. -/
theorem upload_fastq_last_chunk_flag (c : Nat) (ev : Nat → Event)
    (fn nm em : String) (content : Bytes) (b : Bool)
    (hc : 1 ≤ c) (hok : ∀ j, responds200 (ev j) = true)
    (hne : content ≠ []) :
    (uploadFastqFile c ev fn nm em content b).requests.map
        (fun r => r.is_last_chunk)
      = List.replicate
          ((uploadFastqFile c ev fn nm em content b).requests.length - 1)
          "false" ++ ["true"] := by
  simp only [uploadFastqFile]
  exact chunkLoop_lastFlags c ev fn content.length nm em (some b) "False" hc hok
    content 0 1 0 none (by omega) hne

/-- Witness for C2 on an exact-multiple file: 4 bytes with chunk size 2
give flags false, true: the full-size last chunk is marked last. -/
theorem upload_fastq_last_chunk_flag_witness :
    (uploadFastqFile 2 evOk "f.fastq.gz" "n" "e" [1, 2, 3, 4] true).requests.map
        (fun r => r.is_last_chunk) = ["false", "true"] := by
  have h := upload_fastq_last_chunk_flag 2 evOk "f.fastq.gz" "n" "e"
    [1, 2, 3, 4] true (by omega) (fun j => rfl) (by decide)
  have hlen : (uploadFastqFile 2 evOk "f.fastq.gz" "n" "e"
      [1, 2, 3, 4] true).requests.length = 2 := by
    simp [uploadFastqFile, chunkLoop, evOk, pyTruthy]
  rw [h, hlen]
  rfl

/-- Claim C3: when requests 0 to k-1 succeed and request k draws a non-200
response while chunks remain, the loop stops at exactly k + 1 issued
requests and returns with the abort outcome: no further chunk requests, no
exception. -/
theorem upload_fastq_abort_on_non200 (c : Nat) (ev : Nat → Event)
    (fn nm em : String) (content : Bytes) (b : Bool) (k : Nat) (r : Resp)
    (hpre : ∀ j, j < k → responds200 (ev j) = true)
    (hk : ev k = .response r) (hst : r.status ≠ 200)
    (hbound : k < (content.length + c - 1) / c) :
    (uploadFastqFile c ev fn nm em content b).requests.length = k + 1
      ∧ (uploadFastqFile c ev fn nm em content b).outcome
          = .abortedNon200 r.status r.text := by
  simp only [uploadFastqFile]
  exact chunkLoop_abort c ev fn content.length nm em (some b) "False"
    content 0 1 0 none k r (by simpa using hpre) (by simpa using hk) hst hbound

/-- Witness for C3: with chunk size 1 on a 3-byte file, a 500 response to
request 1 stops the session at 2 requests with the abort outcome. -/
theorem upload_fastq_abort_on_non200_witness :
    (uploadFastqFile 1 evFail1 "f.fastq.gz" "n" "e" [1, 2, 3] true).requests.length = 2
      ∧ (uploadFastqFile 1 evFail1 "f.fastq.gz" "n" "e" [1, 2, 3] true).outcome
          = .abortedNon200 500 "err" := by
  have h := upload_fastq_abort_on_non200 1 evFail1 "f.fastq.gz" "n" "e"
    [1, 2, 3] true 1 ⟨500, [], "err"⟩
    (by
      intro j hj
      obtain rfl : j = 0 := by omega
      rfl)
    (by rfl) (by decide) (by decide)
  simpa using h

/-- Counterexample to C5 as stated: a transport error during the first
chunk request of upload_fastq is not caught anywhere in the function: the
exception propagates (raised holds the message) and neither the printed
failure return nor the success print is reached. -/
theorem transport_error_uncaught_cex :
    (upload_fastq 2 (fun _ => [1, 2, 3])
        (fun _ _ => Event.transportError "connection refused") "n" "e"
        ["a.fastq.gz"]).raised = some "connection refused"
      ∧ (upload_fastq 2 (fun _ => [1, 2, 3])
          (fun _ _ => Event.transportError "connection refused") "n" "e"
          ["a.fastq.gz"]).failed = none
      ∧ (upload_fastq 2 (fun _ => [1, 2, 3])
          (fun _ _ => Event.transportError "connection refused") "n" "e"
          ["a.fastq.gz"]).finalMessage = none := by
  have hfil : List.filter (fun f => endsWithPy f ".fastq.gz") ["a.fastq.gz"]
      = ["a.fastq.gz"] := by decide
  refine ⟨?_, ?_, ?_⟩ <;>
    simp [upload_fastq, hfil, uploadFastqGo, uploadFastqFile, chunkLoop, pyTruthy]

/-- Claim C5 (amended): a transport error is caught and logged, with no
retry, in the single-request operations such as list_experiments; in the
chunked upload loop the requests.post call sits in no try/except, so a
transport error on a chunk request ends the upload by an uncaught
exception (still no retry, no further requests). -/
theorem transport_error_caught_vs_raised (m : String) (c : Nat)
    (ev : Nat → Event) (fn nm em : String) (content : Bytes) (b : Bool)
    (hne : List.take c content ≠ []) (h0 : ev 0 = .transportError m) :
    list_experiments (.transportError m) = .caughtError m
      ∧ (uploadFastqFile c ev fn nm em content b).outcome
          = .raisedTransport m := by
  refine ⟨rfl, ?_⟩
  simp only [uploadFastqFile]
  rw [chunkLoop]
  simp [hne, h0]

/-- Witness for the amended C5 at a concrete transport error. -/
theorem transport_error_caught_vs_raised_witness :
    list_experiments (.transportError "boom") = .caughtError "boom"
      ∧ (uploadFastqFile 1 (fun _ => Event.transportError "boom") "f.fastq.gz"
          "n" "e" [5] true).outcome = .raisedTransport "boom" :=
  transport_error_caught_vs_raised "boom" 1
    (fun _ => Event.transportError "boom") "f.fastq.gz" "n" "e" [5] true
    (by decide) rfl

/-- Claim C6: the part_number values sent over the wire are exactly
1, 2, 3, ... with no gaps or repeats, for completed and aborted sessions
alike (the server behaviour is arbitrary, so the list of issued requests
may be cut short, but its part numbers are always the initial segment
starting at 1). -/
theorem upload_fastq_part_numbers (c : Nat) (ev : Nat → Event)
    (fn nm em : String) (content : Bytes) (b : Bool) :
    (uploadFastqFile c ev fn nm em content b).requests.map
        (fun r => r.part_number)
      = List.range' 1
          (uploadFastqFile c ev fn nm em content b).requests.length := by
  simp only [uploadFastqFile]
  exact chunkLoop_partNumbers c ev fn content.length nm em (some b) "False"
    content 0 1 0 none

/-- Counterexample to C4 as stated: the response to the first chunk
supplies upload_id a, the response to the second supplies b, and the third
chunk request then carries b, not the first recorded value a: the recorded
upload_id is overwritten by a later response, so it is neither immutable
once set nor does every subsequent request carry the first received
value. -/
theorem upload_id_immutability_cex :
    (uploadFastqFile 1 evOverwrite "f.fastq.gz" "n" "e" [0, 0, 0] true).requests.map
        (fun r => r.upload_id) = [none, some "a", some "b"]
      ∧ (some "b" : Option String) ≠ some "a" := by
  constructor
  · simp [uploadFastqFile, chunkLoop, evOverwrite, pyTruthy]
    decide
  · decide

/-- Claim C4 (amended): the first chunk request never includes upload_id,
and the j-th request includes exactly the value of the upload_id variable
after the first j responses when that value is truthy (omitting the key
otherwise); since every response that carries the key overwrites the
variable, a request carries the most recently supplied identifier, not
necessarily the first one. -/
theorem upload_id_latest_value (c : Nat) (ev : Nat → Event)
    (fn nm em : String) (content : Bytes) (b : Bool) :
    ((uploadFastqFile c ev fn nm em content b).requests.map
        (fun r => r.upload_id)
      = (List.range' 0
          (uploadFastqFile c ev fn nm em content b).requests.length).map
          (fun j => if pyTruthy (recordedUploadId ev j)
            then recordedUploadId ev j else none))
      ∧ recordedUploadId ev 0 = none := by
  refine ⟨?_, rfl⟩
  simp only [uploadFastqFile]
  exact chunkLoop_uploadIds c ev fn content.length nm em (some b) "False"
    content 0 1 0 none rfl

/-- Claim C7: upload_annotation runs the identical chunked algorithm as
upload_fastq on the same file content, chunk size and server behaviour:
the request streams agree on every field except the two metadata entries
(same chunks, offsets, total sizes, part numbers, is_last_chunk flags and
upload_id handling), the outcomes and final upload_id values coincide, and
the annotation payloads carry the string True under the annotations key
with no is_last_file while the FASTQ payloads carry is_last_file and the
string False. -/
theorem upload_annotation_same_protocol (c : Nat) (ev : Nat → Event)
    (fn nm em : String) (content : Bytes) (b : Bool) :
    ((uploadAnnotFile c ev fn nm em content).requests.map coreOf
        = (uploadFastqFile c ev fn nm em content b).requests.map coreOf)
      ∧ (uploadAnnotFile c ev fn nm em content).outcome
          = (uploadFastqFile c ev fn nm em content b).outcome
      ∧ (uploadAnnotFile c ev fn nm em content).finalUploadId
          = (uploadFastqFile c ev fn nm em content b).finalUploadId
      ∧ (uploadAnnotFile c ev fn nm em content).requests.map
            (fun r => (r.is_last_file, r.annotField))
          = List.replicate
              (uploadAnnotFile c ev fn nm em content).requests.length
              (none, "True")
      ∧ (uploadFastqFile c ev fn nm em content b).requests.map
            (fun r => (r.is_last_file, r.annotField))
          = List.replicate
              (uploadFastqFile c ev fn nm em content b).requests.length
              (some b, "False") := by
  have heq := annotLoop_eq c ev fn content.length nm em content 0 1 0 none
  have hind := chunkLoop_core_indep c ev fn content.length nm em
    none (some b) "True" "False" content 0 1 0 none
  refine ⟨?_, ?_, ?_, ?_, ?_⟩
  · simp only [uploadAnnotFile, uploadFastqFile, heq]
    exact hind.1
  · simp only [uploadAnnotFile, uploadFastqFile, heq]
    exact hind.2.1
  · simp only [uploadAnnotFile, uploadFastqFile, heq]
    exact hind.2.2
  · simp only [uploadAnnotFile, heq]
    exact chunkLoop_metaFields c ev fn content.length nm em none "True"
      content 0 1 0 none
  · simp only [uploadFastqFile]
    exact chunkLoop_metaFields c ev fn content.length nm em (some b) "False"
      content 0 1 0 none

/-- Claim C8: exactly the directory entries whose names end in .fastq.gz
are uploaded: under an all-success server the started sessions are, in
order, the matching files, both counters equal their number, the success
print shows (count / count); and with zero matching files no session is
started and the function reports (0 / 0). -/
theorem upload_fastq_selects_matching (c : Nat) (contents : String → Bytes)
    (events : Nat → Nat → Event) (nm em : String) (files : List String)
    (hok : ∀ fi rj, responds200 (events fi rj) = true) :
    ((upload_fastq c contents events nm em files).sessions.map Prod.fst
        = files.filter (fun f => endsWithPy f ".fastq.gz"))
      ∧ (upload_fastq c contents events nm em files).n_uploaded_files
          = (files.filter (fun f => endsWithPy f ".fastq.gz")).length
      ∧ (upload_fastq c contents events nm em files).n_files
          = (files.filter (fun f => endsWithPy f ".fastq.gz")).length
      ∧ (upload_fastq c contents events nm em files).finalMessage
          = some ((files.filter (fun f => endsWithPy f ".fastq.gz")).length,
              (files.filter (fun f => endsWithPy f ".fastq.gz")).length)
      ∧ (files.filter (fun f => endsWithPy f ".fastq.gz") = [] →
          upload_fastq c contents events nm em files
            = ⟨[], 0, 0, none, none, some (0, 0)⟩) := by
  have h := uploadFastqGo_allOk c contents events nm em
    (files.filter (fun f => endsWithPy f ".fastq.gz")).length hok
    (files.filter (fun f => endsWithPy f ".fastq.gz")) 0 0 0
  refine ⟨?_, ?_, ?_, ?_, ?_⟩
  · simpa [upload_fastq] using h.1
  · simpa [upload_fastq] using h.2.2.1
  · simpa [upload_fastq] using h.2.1
  · simpa [upload_fastq] using h.2.2.2.2.2
  · intro hempty
    simp [upload_fastq, hempty, uploadFastqGo]

/-- Witness for C8 on the directory a.fastq.gz, b.fastq.gz, c.txt: the two
matching files and only they are uploaded, giving counts (2 / 2). -/
theorem upload_fastq_selects_matching_witness :
    ((upload_fastq 2 (fun _ => [1, 2, 3]) evOk2 "n" "e"
        ["a.fastq.gz", "b.fastq.gz", "c.txt"]).sessions.map Prod.fst
        = ["a.fastq.gz", "b.fastq.gz"])
      ∧ (upload_fastq 2 (fun _ => [1, 2, 3]) evOk2 "n" "e"
          ["a.fastq.gz", "b.fastq.gz", "c.txt"]).n_uploaded_files = 2
      ∧ (upload_fastq 2 (fun _ => [1, 2, 3]) evOk2 "n" "e"
          ["a.fastq.gz", "b.fastq.gz", "c.txt"]).n_files = 2 := by
  have h := upload_fastq_selects_matching 2 (fun _ => [1, 2, 3]) evOk2 "n" "e"
    ["a.fastq.gz", "b.fastq.gz", "c.txt"] (fun fi rj => rfl)
  have hfil : List.filter (fun f => endsWithPy f ".fastq.gz")
      ["a.fastq.gz", "b.fastq.gz", "c.txt"] = ["a.fastq.gz", "b.fastq.gz"] := by
    decide
  rw [hfil] at h
  exact ⟨h.1, by rw [h.2.1]; rfl, by rw [h.2.2.1]; rfl⟩

/-- Claim C9: because the session identifier is guarded by a truthiness
test, a successful response that supplies upload_id = "" (with no later
response supplying the key) leaves the variable recorded as the empty
string, yet every subsequent chunk request omits the upload_id key,
exactly as if no identifier had been assigned. -/
theorem upload_id_empty_string_omitted (c : Nat) (ev : Nat → Event)
    (fn nm em : String) (content : Bytes) (b : Bool) (k : Nat) (r : Resp)
    (h1 : ev k = .response r) (h2 : r.json.lookup "upload_id" = some "")
    (h3 : ∀ j, k < j → uidSilent (ev j))
    (hlen : k < (uploadFastqFile c ev fn nm em content b).requests.length) :
    (((uploadFastqFile c ev fn nm em content b).requests.map
        (fun r => r.upload_id)).drop (k + 1)
        = List.replicate
            ((uploadFastqFile c ev fn nm em content b).requests.length - (k + 1))
            none)
      ∧ (uploadFastqFile c ev fn nm em content b).finalUploadId = some "" := by
  have hrek : recordedUploadId ev (k + 1) = some "" := by
    rw [recordedUploadId_succ, h1]
    show (match r.json.lookup "upload_id" with
      | some v => some v
      | none => recordedUploadId ev k) = some ""
    rw [h2]
  have hconst : ∀ i, k + 1 ≤ i → recordedUploadId ev i = some "" := by
    intro i hi
    rw [recorded_stable_after ev k h3 i hi, hrek]
  have hmap := chunkLoop_uploadIds c ev fn content.length nm em (some b)
    "False" content 0 1 0 none rfl
  constructor
  · simp only [uploadFastqFile] at hlen ⊢
    rw [hmap, ← List.map_drop, range'_drop]
    simp only [Nat.zero_add]
    refine map_none_on_range' _ _ (k + 1) ?_
    intro j hj
    rw [hconst j hj]
    rfl
  · simp only [uploadFastqFile] at hlen ⊢
    rw [chunkLoop_finalUploadId c ev fn content.length nm em (some b) "False"
      content 0 1 0 none rfl]
    exact hconst _ (by omega)

/-- Witness for C9: the first response supplies the empty upload_id on a
3-chunk session; both later requests omit the key and the variable ends
recorded as the empty string. -/
theorem upload_id_empty_string_omitted_witness :
    (((uploadFastqFile 1 evEmptyUid "f.fastq.gz" "n" "e" [7, 7, 7] true).requests.map
        (fun r => r.upload_id)).drop 1 = List.replicate 2 none)
      ∧ (uploadFastqFile 1 evEmptyUid "f.fastq.gz" "n" "e" [7, 7, 7] true).finalUploadId
          = some "" := by
  have hlen : (uploadFastqFile 1 evEmptyUid "f.fastq.gz" "n" "e"
      [7, 7, 7] true).requests.length = 3 := by
    simp [uploadFastqFile, chunkLoop, evEmptyUid, pyTruthy]
  have h := upload_id_empty_string_omitted 1 evEmptyUid "f.fastq.gz" "n" "e"
    [7, 7, 7] true 0 ⟨200, [("upload_id", "")], ""⟩ rfl (by decide)
    (by
      intro j hj
      match j, hj with
      | j + 1, _ => simp [evEmptyUid, uidSilent])
    (by rw [hlen]; omega)
  rw [hlen] at h
  exact ⟨h.1, h.2⟩

/-- Claim C10: whenever the FASTQ uploader prints its chunk-failure
message, the numerator and the denominator of the shown file count agree,
and they equal the final n_files counter, which counts exactly the
sessions started so far, not all matching files. -/
theorem upload_fastq_fail_denominator (c : Nat) (contents : String → Bytes)
    (events : Nat → Nat → Event) (nm em : String) (files : List String)
    (f : String) (num den st : Nat)
    (hfail : (upload_fastq c contents events nm em files).failed
        = some (f, num, den, st)) :
    num = den
      ∧ den = (upload_fastq c contents events nm em files).n_files
      ∧ (upload_fastq c contents events nm em files).n_files
          = (upload_fastq c contents events nm em files).sessions.length := by
  have h := uploadFastqGo_failCounts c contents events nm em
    (files.filter (fun f => endsWithPy f ".fastq.gz")).length
    (files.filter (fun f => endsWithPy f ".fastq.gz")) 0 0 f num den st
    (by simpa [upload_fastq] using hfail)
  refine ⟨h.1, ?_, ?_⟩
  · simpa [upload_fastq] using h.2.1
  · simpa [upload_fastq] using h.2.2

/-- Witness for C10: three matching files, the second fails on its first
chunk with status 500; the failure message shows (2 / 2) although a third
matching file was never attempted. -/
theorem upload_fastq_fail_denominator_witness :
    (2 : Nat) = 2
      ∧ (2 : Nat) = (upload_fastq 1 (fun _ => [9]) evFailFile1 "n" "e"
          ["a.fastq.gz", "b.fastq.gz", "c.fastq.gz"]).n_files
      ∧ (upload_fastq 1 (fun _ => [9]) evFailFile1 "n" "e"
          ["a.fastq.gz", "b.fastq.gz", "c.fastq.gz"]).n_files
          = (upload_fastq 1 (fun _ => [9]) evFailFile1 "n" "e"
              ["a.fastq.gz", "b.fastq.gz", "c.fastq.gz"]).sessions.length := by
  apply upload_fastq_fail_denominator 1 (fun _ => [9]) evFailFile1 "n" "e"
    ["a.fastq.gz", "b.fastq.gz", "c.fastq.gz"] "b.fastq.gz" 2 2 500
  have hfil : List.filter (fun f => endsWithPy f ".fastq.gz")
      ["a.fastq.gz", "b.fastq.gz", "c.fastq.gz"]
      = ["a.fastq.gz", "b.fastq.gz", "c.fastq.gz"] := by decide
  simp [upload_fastq, hfil, uploadFastqGo, uploadFastqFile, chunkLoop,
    evFailFile1, pyTruthy]

end NLClient
